import Mathlib

/-!
Verification of the summary / comparison pipeline.

Shallow embedding of the classification + aggregation + comparison core of
the repository (`src/pages/summary.py` and `src/pages/comparison.py`).

Modelling conventions:
* A DataFrame is a column list, the sublist of columns whose dtype is
  numeric, and a list of rows; a cell is a rational number, a string, or
  null (pandas NaN / None).
* `Series.nunique` counts distinct non-null values (pandas default
  `dropna=True`).
* Machine floats are modelled by `ℚ`; every concrete value appearing in a
  theorem below is exactly representable, so no rounding questions arise.
* `groupby(group_cols).agg(agg_dict)` raises `KeyError` whenever a key of
  `agg_dict` is one of `group_cols`: pandas excludes the grouping columns
  from the frame being aggregated, and the dict is validated against the
  remaining columns.  Fallible steps return `Except String`.
* Group rows are kept in first-encounter order of their keys; no theorem
  below depends on row order.
-/

namespace Scripts

attribute [local semireducible] Rat.add Rat.sub Rat.mul Rat.inv

/-- A cell value of the raw DataFrame: number, text, or null (NaN/None). -/
inductive Val where
  | num (q : ℚ)
  | str (s : String)
  | null
deriving DecidableEq, Repr

/-- A DataFrame: the ordered column names, the sublist of columns of numeric
dtype, and the rows (each row lists its cells in column order). -/
structure DF where
  cols : List String
  numCols : List String
  rows : List (List Val)
deriving DecidableEq, Repr

/-- The value of column `c` in row `r` of `df` (null when absent). -/
def getVal (df : DF) (r : List Val) (c : String) : Val :=
  match df.cols.indexOf? c with
  | some i => r.getD i Val.null
  | none => Val.null

/-- The column `c` of `df` as a list of cells. -/
def colVals (df : DF) (c : String) : List Val :=
  df.rows.map (fun r => getVal df r c)

/-- Embeds `df[c].nunique()`: the number of distinct non-null values. -/
def nunique (df : DF) (c : String) : ℕ :=
  (((colVals df c).filter (fun v => decide (v ≠ Val.null))).dedup).length

/-- Embeds `identify_categories` of summary.py: all columns other than
Currency and Error whose distinct-value count is below the threshold. -/
def identify_categories (df : DF) (threshold : ℕ := 20) : List String :=
  df.cols.filter (fun c =>
    decide (c ∉ ["Currency", "Error"]) && decide (nunique df c < threshold))

/-- Embeds `get_numeric_columns` of summary.py: the numeric-dtype columns
other than Currency and Error. -/
def get_numeric_columns (df : DF) : List String :=
  df.numCols.filter (fun c => decide (c ∉ ["Currency", "Error"]))

/-- Embeds `identify_single_value_categories` of summary.py.  The source
builds a set; we keep the (duplicate-free) list in category order, which
only fixes an iteration order the Python set leaves open. -/
def identify_single_value_categories (df : DF) (categories : List String) :
    List String :=
  categories.filter (fun c => nunique df c == 1)

/-- A cell of a summary table: a number, or the blank marker that
`format_numeric_column` puts where a value is exactly zero (the source
writes the empty string there, turning the column into object dtype). -/
inductive Cell where
  | num (q : ℚ)
  | blank
deriving DecidableEq, Repr

/-- Rounding to 4 decimal digits, as `Series.round(4)` does on a numeric
column. -/
def round4 (q : ℚ) : ℚ := ((round (q * 10000) : ℤ) : ℚ) / 10000

/-- Embeds `column.round(4)` on one cell: on a blank (string) cell numpy has
no round and raises, exactly as `Series.round` does on the object-dtype
column produced by a previous formatting pass. -/
def roundCell (c : Cell) : Except String Cell :=
  match c with
  | Cell.num q => Except.ok (Cell.num (round4 q))
  | Cell.blank => Except.error "TypeError: rounding a non-numeric cell"

/-- Embeds `format_numeric_column` of summary.py: round the column to 4
decimals, then `formatted.where(formatted != 0, backslash-free blank)`
replaces every exact zero by the blank marker.  A blank already present in
the input makes the rounding step raise. -/
def format_numeric_column (column : List Cell) : Except String (List Cell) := do
  let formatted ← column.mapM roundCell
  return formatted.map (fun c => if c = Cell.num 0 then Cell.blank else c)

/-- One application of the formatter to a raw numeric value: what
`format_numeric_column` stores for a cell that arrives as a number. -/
def formatNum (q : ℚ) : Cell :=
  if round4 q = 0 then Cell.blank else Cell.num (round4 q)

/-! ## Grouped aggregation (`generate_summary` of summary.py) -/

/-- Duplicate removal keeping the first occurrence, the order in which
`groupby` discovers keys. -/
def dedupFirst {α : Type} [DecidableEq α] (l : List α) : List α :=
  l.foldl (fun acc k => if k ∈ acc then acc else acc ++ [k]) []

/-- The grouping key of row `r`: the tuple of its values at `groupCols`. -/
def keyOf (df : DF) (groupCols : List String) (r : List Val) : List Val :=
  groupCols.map (fun c => getVal df r c)

/-- The distinct grouping keys of `df` under `groupCols`. -/
def groupKeys (df : DF) (groupCols : List String) : List (List Val) :=
  dedupFirst (df.rows.map (keyOf df groupCols))

/-- Numeric reading of a cell for summation: pandas `sum` skips NaN, so a
null contributes zero (a numeric-dtype column holds only numbers and NaN). -/
def numVal : Val → ℚ
  | Val.num q => q
  | _ => 0

/-- The `sum` aggregate of column `c` over the group of `key`. -/
def groupSum (df : DF) (groupCols : List String) (key : List Val) (c : String) : ℚ :=
  ((df.rows.filter (fun r => decide (keyOf df groupCols r = key))).map
    (fun r => numVal (getVal df r c))).sum

/-- The `size` aggregate (record count) of the group of `key`. -/
def groupCount (df : DF) (groupCols : List String) (key : List Val) : ℕ :=
  (df.rows.filter (fun r => decide (keyOf df groupCols r = key))).length

/-- A row of an aggregate table before formatting: the grouping-key values,
the record count, and the raw sum of every numeric column. -/
structure ARow where
  key : List Val
  count : ℕ
  sums : List (String × ℚ)
deriving DecidableEq, Repr

/-- An aggregate table before formatting. -/
structure ATable where
  keyCols : List String
  numCols : List String
  rows : List ARow
deriving DecidableEq, Repr

/-- True when a key of the aggregation dict is one of the grouping columns;
pandas `groupby(groupCols).agg(...)` raises `KeyError` then, because the
grouping columns are excluded from the frame being aggregated. -/
def aggKeyError (groupCols aggCols : List String) : Bool :=
  aggCols.any (fun c => groupCols.contains c)

/-- Embeds `df.groupby(groupCols).agg(sum-per-numCols)` followed by the
positional `count` assignment from `df.groupby(groupCols).size()` (both
groupbys see the same keys, so the source's positional alignment is exact).
`aggCols` is the key set of the aggregation dict, used only for the
`KeyError` check. -/
def groupAgg (df : DF) (groupCols numCols aggCols : List String) :
    Except String ATable :=
  if aggKeyError groupCols aggCols then
    Except.error "KeyError: aggregated columns do not exist after grouping"
  else
    Except.ok
      { keyCols := groupCols
        numCols := numCols
        rows := (groupKeys df groupCols).map (fun k =>
          { key := k
            count := groupCount df groupCols k
            sums := numCols.map (fun c => (c, groupSum df groupCols k c)) }) }

/-- A row of a summary table after `format_numeric_column` ran on every
numeric column. -/
structure SRow where
  key : List Val
  count : ℕ
  sums : List (String × Cell)
deriving DecidableEq, Repr

/-- A summary table after formatting; column order of the source frame is
`keyCols ++ count ++ numCols`. -/
structure STable where
  keyCols : List String
  numCols : List String
  rows : List SRow
deriving DecidableEq, Repr

/-- Formatting every numeric column of an aggregate table (the raw sums are
numbers, so the fallible rounding cannot fail here). -/
def formatTable (t : ATable) : STable :=
  { keyCols := t.keyCols
    numCols := t.numCols
    rows := t.rows.map (fun r =>
      { key := r.key
        count := r.count
        sums := r.sums.map (fun p => (p.1, formatNum p.2)) }) }

/-- An entry of the SummarySet: an aggregate table or the raw error
records. -/
inductive STab where
  | agg (t : STable)
  | raw (rows : List (List Val))
deriving DecidableEq, Repr

/-- The SummarySet: a name-to-table mapping, kept in insertion order. -/
abbrev SummarySet := List (String × STab)

/-- The records whose Error field is non-null: `df[df.Error.notna()]`. -/
def errorRows (df : DF) : List (List Val) :=
  df.rows.filter (fun r => decide (getVal df r "Error" ≠ Val.null))

/-- The `errors` part of the SummarySet: when an `Error` column exists and
some record has a non-null value there, those raw records become the
`errors` table; otherwise nothing. -/
def errorsPart (df : DF) : SummarySet :=
  if df.cols.contains "Error" then
    if (errorRows df).isEmpty then [] else [("errors", STab.raw (errorRows df))]
  else []

/-- The single-value categories of `df`, as `generate_summary` computes
them. -/
def singleValueCats (df : DF) : List String :=
  identify_single_value_categories df (identify_categories df 20)

/-- The categories `generate_summary`'s per-category loop runs over. -/
def remainingCats (df : DF) : List String :=
  (identify_categories df 20).filter (fun c => !((singleValueCats df).contains c))

/-- One iteration of the per-category loop: skip an empty column
(`df[category].empty`), build the `(category, Currency)` grouping with
per-numeric-column sums and the count, format the numeric columns; a raised
`KeyError` (the category's own column sits in the aggregation dict whenever
the category is numeric) is caught, printed and swallowed — the iteration
yields nothing and leaves no trace in the returned value. -/
def categoryEntry (df : DF) (category : String) : Option (String × STab) :=
  if df.rows.isEmpty then none
  else
    match groupAgg df [category, "Currency"] (get_numeric_columns df)
        (get_numeric_columns df) with
    | Except.ok t => some (category, STab.agg (formatTable t))
    | Except.error _ => none

/-- Embeds `generate_summary` of summary.py.

* Errors first: `errorsPart`.
* Base table: when there are single-value categories, the source groups by
  `Currency` plus those categories while the aggregation dict also maps
  each of them to `first`; the single-value categories are grouping
  columns, so pandas raises `KeyError` — uncaught, it aborts the whole
  call.
* Otherwise one table per remaining category via `categoryEntry`. -/
def generate_summary (df : DF) : Except String SummarySet :=
  if (singleValueCats df).isEmpty then
    Except.ok (errorsPart df ++ (remainingCats df).filterMap (categoryEntry df))
  else
    Except.error "KeyError: first-aggregated single-value categories are grouping columns"

/-! ## Comparison (`compare_summaries` of comparison.py)

The comparison works on the numeric view of two summary tables: a table is
the list of its non-key column names (`count` and the numeric fields; the
two key columns — the category and `Currency` — are the row key here) and,
per GroupKey, an association of column name to value.  A column missing for
a row models the NaN an outer merge leaves on a one-sided key, and is what
the source's `notna` mask filters out. -/

/-- Association-list lookup (dict access / merge by key). -/
def alookup {α β : Type} [DecidableEq α] (k : α) : List (α × β) → Option β
  | [] => none
  | p :: ps => if p.1 = k then some p.2 else alookup k ps

/-- A summary table as the comparison sees it. -/
structure CTable where
  cols : List String
  rows : List ((Val × Val) × List (String × ℚ))
deriving DecidableEq, Repr

/-- The directory of summaries handed to the comparison. -/
abbrev CSummary := List (String × CTable)

/-- The division guard: `clip(lower=1e-10)`. -/
def epsQ : ℚ := 1 / 10000000000

/-- The relative difference of the source:
`(b - a).abs() / a.abs().clip(lower=1e-10)`. -/
def relDiff (a b : ℚ) : ℚ := |b - a| / max |a| epsQ

/-- One significant-difference row as the source selects it:
`[category, Currency, col_df1, col_df2, col_diff]`. -/
structure ColDiff where
  key : Val × Val
  a : ℚ
  b : ℚ
  rel : ℚ
deriving DecidableEq, Repr

/-- An entry of one table's comparison output: the per-column significant
differences, or the message rows for a table present on one side only. -/
inductive DiffEntry where
  | colDiffs (column : String) (differences : List ColDiff)
  | onlyInFirst (category : String) (data : CTable)
  | onlyInSecond (category : String) (data : CTable)
deriving DecidableEq, Repr

/-- The columns the source diffs:
`[col for col in df1_summary.columns if col not in [category, Currency, count]]`
(the category and Currency columns are this embedding's row key, so only
`count` remains to be dropped). -/
def numericCols (t : CTable) : List String :=
  t.cols.filter (fun c => decide (c ≠ "count"))

/-- The value of column `c` in the row of key `k`, when both exist. -/
def colVal (t : CTable) (k : Val × Val) (c : String) : Option ℚ :=
  (alookup k t.rows).bind (fun r => alookup c r)

/-- The key list of the outer merge: left keys in order, then right-only
keys. -/
def mergedKeys (t1 t2 : CTable) : List (Val × Val) :=
  dedupFirst (t1.rows.map Prod.fst ++ t2.rows.map Prod.fst)

/-- Embeds, for one numeric column, the masked relative-difference
computation and the strict-threshold filter
`merged[merged[col_diff] > threshold]`: a row with a one-sided key has a
NaN diff and never passes the filter. -/
def sigList (t1 t2 : CTable) (threshold : ℚ) (col : String) : List ColDiff :=
  (mergedKeys t1 t2).filterMap (fun k =>
    match colVal t1 k col, colVal t2 k col with
    | some a, some b =>
      if relDiff a b > threshold then
        some { key := k, a := a, b := b, rel := relDiff a b }
      else none
    | _, _ => none)

/-- Embeds the both-sides branch of the source loop: one `colDiffs` entry
per numeric column that has at least one significant row. -/
def compareBoth (t1 t2 : CTable) (threshold : ℚ) : List DiffEntry :=
  (numericCols t1).filterMap (fun col =>
    let sig := sigList t1 t2 threshold col
    if sig.isEmpty then none else some (DiffEntry.colDiffs col sig))

/-- The `category_diffs` list the source builds for one table name. -/
def entriesFor (s1 s2 : CSummary) (threshold : ℚ) (category : String) :
    List DiffEntry :=
  match alookup category s1, alookup category s2 with
  | some t1, some t2 => compareBoth t1 t2 threshold
  | some t1, none => [DiffEntry.onlyInFirst category t1]
  | none, some t2 => [DiffEntry.onlyInSecond category t2]
  | none, none => []

/-- Embeds `compare_summaries` of comparison.py: for every table name of
either summary except `errors`, the entry list, kept only when non-empty. -/
def compare_summaries (s1 s2 : CSummary) (threshold : ℚ := 1 / 100) :
    List (String × List DiffEntry) :=
  (dedupFirst (s1.map Prod.fst ++ s2.map Prod.fst)).filterMap (fun category =>
    if category = "errors" then none
    else if (entriesFor s1 s2 threshold category).isEmpty then none
    else some (category, entriesFor s1 s2 threshold category))

/-! ## The application pipeline

`update_comparison` of comparison.py feeds `generate_summary`'s output —
whose numeric columns `generate_summary` already formatted — directly into
`compare_summaries`.  The conversion below is the numeric view of such a
summary: the key columns become the row key, `count` becomes a numeric
column, and each formatted cell its rational value.  It is used only on
tables without blank cells (on a blank, the source's column subtraction
would raise before any mask applied). -/

/-- The rational reading of a formatted cell, when it has one. -/
def cellQ : Cell → Option ℚ
  | Cell.num q => some q
  | Cell.blank => none

/-- The comparison view of a formatted summary table (two key columns). -/
def ctableOf (t : STable) : CTable :=
  { cols := "count" :: t.numCols
    rows := t.rows.filterMap (fun r =>
      match r.key with
      | [kv, cur] =>
        some ((kv, cur),
          ("count", (r.count : ℚ)) ::
            r.sums.filterMap (fun p => (cellQ p.2).map (fun q => (p.1, q))))
      | _ => none) }

/-- The comparison view of a whole SummarySet (the raw `errors` table,
which the comparison skips by name anyway, is dropped). -/
def csummaryOf (s : SummarySet) : CSummary :=
  s.filterMap (fun p =>
    match p.2 with
    | STab.agg t => some (p.1, ctableOf t)
    | STab.raw _ => none)

/-! ## Derived notions used by the statements -/

/-- The value of column `c` in a comparison row, defaulting to 0; used only
where the column is known to be present. -/
def getQ (r : List (String × ℚ)) (c : String) : ℚ :=
  (alookup c r).getD 0

/-- The maximum relative difference across the numeric columns of a common
row (with 0, the infimum of possible relative differences, for an empty
column list). -/
def maxRelDiff (t1 : CTable) (rA rB : List (String × ℚ)) : ℚ :=
  ((numericCols t1).map (fun c => relDiff (getQ rA c) (getQ rB c))).foldr max 0

/-- Key `k` is retained in table `cat` of a comparison output: some
difference row for it survives the significance filter. -/
def keyRetained (out : List (String × List DiffEntry)) (cat : String)
    (k : Val × Val) : Prop :=
  ∃ entries col diffs d, (cat, entries) ∈ out ∧
    DiffEntry.colDiffs col diffs ∈ entries ∧ d ∈ diffs ∧ d.key = k

/-! ## Concrete datasets and summaries the theorems evaluate -/

/-- C1's dataset: one clean record and one record with `Error="timeout"`. -/
def dfErr : DF :=
  { cols := ["Cat", "Currency", "Error", "Amt"]
    numCols := ["Amt"]
    rows := [[Val.str "A", Val.str "USD", Val.null, Val.num 10],
             [Val.str "B", Val.str "USD", Val.str "timeout", Val.num 5]] }

/-- The Cat table `generate_summary` builds for `dfErr`: the error record
contributes the whole (B, USD) row. -/
def dfErrCatTable : STable :=
  { keyCols := ["Cat", "Currency"]
    numCols := ["Amt"]
    rows := [{ key := [Val.str "A", Val.str "USD"], count := 1,
               sums := [("Amt", Cell.num 10)] },
             { key := [Val.str "B", Val.str "USD"], count := 1,
               sums := [("Amt", Cell.num 5)] }] }

/-- C6's dataset, exactly the records of the spec's single-value-folding
example. -/
def dfFold : DF :=
  { cols := ["Cat", "Region", "Currency", "Amt"]
    numCols := ["Amt"]
    rows := [[Val.str "A", Val.str "west", Val.str "USD", Val.num 10],
             [Val.str "A", Val.str "east", Val.str "USD", Val.num 5]] }

/-- C2's first dataset: the (A, USD) group sums to 0.001. -/
def dfRoundA : DF :=
  { cols := ["Cat", "Currency", "Amt"]
    numCols := ["Amt"]
    rows := [[Val.str "A", Val.str "USD", Val.num (1 / 1000)],
             [Val.str "B", Val.str "USD", Val.num 5]] }

/-- C2's second dataset: the (A, USD) group sums to 0.00104, which rounds
to 0.001 at 4 decimals. -/
def dfRoundB : DF :=
  { cols := ["Cat", "Currency", "Amt"]
    numCols := ["Amt"]
    rows := [[Val.str "A", Val.str "USD", Val.num (13 / 12500)],
             [Val.str "B", Val.str "USD", Val.num 5]] }

/-- The formatted Cat table of `dfRoundA` — and, after rounding, of
`dfRoundB` as well. -/
def dfRoundTable : STable :=
  { keyCols := ["Cat", "Currency"]
    numCols := ["Amt"]
    rows := [{ key := [Val.str "A", Val.str "USD"], count := 1,
               sums := [("Amt", Cell.num (1 / 1000))] },
             { key := [Val.str "B", Val.str "USD"], count := 1,
               sums := [("Amt", Cell.num 5)] }] }

/-- C7's dataset: `Val` is numeric with two distinct values, so it is both
a numeric field and a category, and its own grouping step raises. -/
def dfNumCat : DF :=
  { cols := ["Cat", "Currency", "Val"]
    numCols := ["Val"]
    rows := [[Val.str "A", Val.str "USD", Val.num 1],
             [Val.str "B", Val.str "USD", Val.num 2]] }

/-- The one table `generate_summary` returns for `dfNumCat`. -/
def dfNumCatTable : STable :=
  { keyCols := ["Cat", "Currency"]
    numCols := ["Val"]
    rows := [{ key := [Val.str "A", Val.str "USD"], count := 1,
               sums := [("Val", Cell.num 1)] },
             { key := [Val.str "B", Val.str "USD"], count := 1,
               sums := [("Val", Cell.num 2)] }] }

/-- C4's summary A: one row, `Amt` sum 100. -/
def tXa : CTable :=
  { cols := ["count", "Amt"]
    rows := [((Val.str "X", Val.str "USD"), [("count", 2), ("Amt", 100)])] }

/-- C4's summary B at the threshold boundary: `Amt` sum 101. -/
def tXb1 : CTable :=
  { cols := ["count", "Amt"]
    rows := [((Val.str "X", Val.str "USD"), [("count", 2), ("Amt", 101)])] }

/-- C4's significant summary B: `Amt` sum 102. -/
def tXb2 : CTable :=
  { cols := ["count", "Amt"]
    rows := [((Val.str "X", Val.str "USD"), [("count", 2), ("Amt", 102)])] }

/-- C3's summary A, the claim's own example: one GroupKey, count only. -/
def tNewA : CTable :=
  { cols := ["count"]
    rows := [((Val.str "X", Val.str "USD"), [("count", 2)])] }

/-- C3's summary B: the extra GroupKey (Y, USD). -/
def tNewB : CTable :=
  { cols := ["count"]
    rows := [((Val.str "X", Val.str "USD"), [("count", 2)]),
             ((Val.str "Y", Val.str "USD"), [("count", 1)])] }

/-- C3's summary A with a numeric field besides count. -/
def tNewA2 : CTable :=
  { cols := ["count", "Amt"]
    rows := [((Val.str "X", Val.str "USD"), [("count", 2), ("Amt", 7)])] }

/-- C3's summary B with a numeric field: the one-sided key (Y, USD) carries
values of its own. -/
def tNewB2 : CTable :=
  { cols := ["count", "Amt"]
    rows := [((Val.str "X", Val.str "USD"), [("count", 2), ("Amt", 7)]),
             ((Val.str "Y", Val.str "USD"), [("count", 1), ("Amt", 3)])] }

/-- A one-row summary table whose `Amt` doubles between the two sides:
side A. -/
def tSigA : CTable :=
  { cols := ["Amt"]
    rows := [((Val.str "X", Val.str "USD"), [("Amt", 1)])] }

/-- The significant counterpart of `tSigA`: side B. -/
def tSigB : CTable :=
  { cols := ["Amt"]
    rows := [((Val.str "X", Val.str "USD"), [("Amt", 2)])] }

/-- The difference row comparing `tSigA` with `tSigB` produces. -/
def dSig : ColDiff :=
  { key := (Val.str "X", Val.str "USD"), a := 1, b := 2, rel := 1 }

/-- The difference row comparing `tXa` with `tXb2` produces. -/
def dX : ColDiff :=
  { key := (Val.str "X", Val.str "USD"), a := 100, b := 102, rel := 1 / 50 }

/-! ## Membership lemmas for the embedding's combinators -/

theorem dedupFirst_loop_mem {α : Type} [DecidableEq α] (l acc : List α) (x : α) :
    x ∈ l.foldl (fun acc k => if k ∈ acc then acc else acc ++ [k]) acc ↔
      x ∈ acc ∨ x ∈ l := by
  induction l generalizing acc with
  | nil => simp
  | cons a l ih =>
    simp only [List.foldl_cons]
    rw [ih]
    by_cases h : a ∈ acc
    · simp only [if_pos h, List.mem_cons]
      constructor
      · rintro (hx | hx)
        · exact Or.inl hx
        · exact Or.inr (Or.inr hx)
      · rintro (hx | rfl | hx)
        · exact Or.inl hx
        · exact Or.inl h
        · exact Or.inr hx
    · simp only [if_neg h, List.mem_append, List.mem_singleton, List.mem_cons]
      tauto

/-- Membership survives first-occurrence deduplication. -/
theorem mem_dedupFirst {α : Type} [DecidableEq α] (l : List α) (x : α) :
    x ∈ dedupFirst l ↔ x ∈ l := by
  unfold dedupFirst
  rw [dedupFirst_loop_mem]
  simp

/-- A key has a lookup value exactly when it occurs among the keys. -/
theorem alookup_isSome {α β : Type} [DecidableEq α] (k : α) (l : List (α × β)) :
    (alookup k l).isSome ↔ k ∈ l.map Prod.fst := by
  induction l with
  | nil => simp [alookup]
  | cons p l ih =>
    by_cases h : p.1 = k
    · simp [alookup, h]
    · simp only [alookup, if_neg h, List.map_cons, List.mem_cons, ih]
      constructor
      · exact Or.inr
      · rintro (rfl | hx)
        · exact absurd rfl h
        · exact hx

/-- A successful lookup exhibits a member pair. -/
theorem alookup_eq_some_mem {α β : Type} [DecidableEq α] {k : α}
    {l : List (α × β)} {v : β} (h : alookup k l = some v) : (k, v) ∈ l := by
  induction l with
  | nil => simp [alookup] at h
  | cons p l ih =>
    by_cases hp : p.1 = k
    · rw [alookup, if_pos hp] at h
      obtain rfl := Option.some.inj h
      have hpk : (k, p.2) = p := by
        obtain ⟨p1, p2⟩ := p
        simp only at hp ⊢
        rw [hp]
      rw [hpk]
      exact List.mem_cons_self p l
    · rw [alookup, if_neg hp] at h
      exact List.mem_cons_of_mem p (ih h)

/-- A key absent from every pair looks up to nothing. -/
theorem alookup_eq_none {α β : Type} [DecidableEq α] {k : α}
    {l : List (α × β)} (h : ∀ p ∈ l, p.1 ≠ k) : alookup k l = none := by
  induction l with
  | nil => rfl
  | cons p l ih =>
    rw [alookup, if_neg (h p (List.mem_cons_self p l))]
    exact ih fun q hq => h q (List.mem_cons_of_mem p hq)

/-- What it takes for a difference row to be in one column's significant
list: its key is a merged key, both sides carry a value for the column,
and the row records exactly those values and their relative difference,
which strictly exceeds the threshold. -/
theorem mem_sigList {t1 t2 : CTable} {th : ℚ} {col : String} {d : ColDiff} :
    d ∈ sigList t1 t2 th col ↔
      d.key ∈ mergedKeys t1 t2 ∧
      colVal t1 d.key col = some d.a ∧ colVal t2 d.key col = some d.b ∧
      relDiff d.a d.b > th ∧ d.rel = relDiff d.a d.b := by
  unfold sigList
  rw [List.mem_filterMap]
  constructor
  · rintro ⟨k, hk, hf⟩
    split at hf
    · rename_i a b h1 h2
      split at hf
      · rename_i hr
        obtain rfl := Option.some.inj hf
        exact ⟨hk, h1, h2, hr, rfl⟩
      · cases hf
    · cases hf
  · rintro ⟨hk, h1, h2, hr, hrel⟩
    refine ⟨d.key, hk, ?_⟩
    rw [h1, h2]
    show (if relDiff d.a d.b > th then
        some { key := d.key, a := d.a, b := d.b, rel := relDiff d.a d.b }
      else none) = some d
    rw [if_pos hr, ← hrel]

/-- The entries of the both-sides branch are exactly the non-empty
per-column significant lists. -/
theorem mem_compareBoth {t1 t2 : CTable} {th : ℚ} {e : DiffEntry} :
    e ∈ compareBoth t1 t2 th ↔
      ∃ col, col ∈ numericCols t1 ∧ sigList t1 t2 th col ≠ [] ∧
        e = DiffEntry.colDiffs col (sigList t1 t2 th col) := by
  unfold compareBoth
  rw [List.mem_filterMap]
  constructor
  · rintro ⟨col, hcol, hf⟩
    by_cases hs : (sigList t1 t2 th col).isEmpty
    · rw [if_pos hs] at hf
      cases hf
    · rw [if_neg hs] at hf
      obtain rfl := Option.some.inj hf
      refine ⟨col, hcol, ?_, rfl⟩
      intro hnil
      exact hs (by rw [hnil]; rfl)
  · rintro ⟨col, hcol, hne, rfl⟩
    refine ⟨col, hcol, ?_⟩
    rw [if_neg ?_]
    intro hs
    exact hne (List.isEmpty_iff.mp hs)

/-- The output of the comparison holds exactly the non-errors table names
with a non-empty entry list, each paired with that list. -/
theorem mem_compare_summaries {s1 s2 : CSummary} {th : ℚ} {cat : String}
    {entries : List DiffEntry} :
    (cat, entries) ∈ compare_summaries s1 s2 th ↔
      cat ∈ s1.map Prod.fst ++ s2.map Prod.fst ∧ cat ≠ "errors" ∧
      entriesFor s1 s2 th cat ≠ [] ∧ entries = entriesFor s1 s2 th cat := by
  unfold compare_summaries
  rw [List.mem_filterMap]
  constructor
  · rintro ⟨c, hc, hf⟩
    rw [mem_dedupFirst] at hc
    by_cases he : c = "errors"
    · rw [if_pos he] at hf
      cases hf
    · rw [if_neg he] at hf
      by_cases hn : (entriesFor s1 s2 th c).isEmpty
      · rw [if_pos hn] at hf
        cases hf
      · rw [if_neg hn] at hf
        have heq := Option.some.inj hf
        obtain ⟨rfl, rfl⟩ : c = cat ∧ entriesFor s1 s2 th c = entries :=
          Prod.mk.injEq .. ▸ heq
        refine ⟨hc, he, ?_, rfl⟩
        intro hnil
        exact hn (by rw [hnil]; rfl)
  · rintro ⟨hc, he, hne, rfl⟩
    refine ⟨cat, (mem_dedupFirst _ _).mpr hc, ?_⟩
    rw [if_neg he, if_neg ?_]
    intro hs
    exact hne (List.isEmpty_iff.mp hs)

/-- Every difference row of the comparison output comes from a table
present in both summaries, concerns one of side A's numeric columns,
carries the two sides' values of a key both sides have, and records their
relative difference, which strictly exceeds the threshold. -/
theorem colDiff_row_spec {s1 s2 : CSummary} {th : ℚ} {cat : String}
    {entries : List DiffEntry} {col : String} {diffs : List ColDiff} {d : ColDiff}
    (hmem : (cat, entries) ∈ compare_summaries s1 s2 th)
    (hcol : DiffEntry.colDiffs col diffs ∈ entries)
    (hd : d ∈ diffs) :
    ∃ t1 t2, alookup cat s1 = some t1 ∧ alookup cat s2 = some t2 ∧
      col ∈ numericCols t1 ∧ d.key ∈ mergedKeys t1 t2 ∧
      colVal t1 d.key col = some d.a ∧ colVal t2 d.key col = some d.b ∧
      d.rel = relDiff d.a d.b ∧ relDiff d.a d.b > th := by
  obtain ⟨-, -, -, rfl⟩ := mem_compare_summaries.mp hmem
  unfold entriesFor at hcol
  rcases h1 : alookup cat s1 with _ | t1 <;> rcases h2 : alookup cat s2 with _ | t2 <;>
      rw [h1, h2] at hcol
  · cases hcol
  · simp at hcol
  · simp at hcol
  · obtain ⟨col', hcol', hne, heq⟩ := mem_compareBoth.mp hcol
    injection heq with hc hdiffs
    subst hc
    subst hdiffs
    obtain ⟨hk, ha, hb, hr, hrel⟩ := mem_sigList.mp hd
    exact ⟨t1, t2, rfl, rfl, hcol', hk, ha, hb, hrel, hr⟩

/-- Conversely, a common key whose relative difference on some numeric
column strictly exceeds the threshold does appear in the comparison
output. -/
theorem sig_mem_compare {s1 s2 : CSummary} {th : ℚ} {cat : String} {t1 t2 : CTable}
    {k : Val × Val} {col : String} {a b : ℚ}
    (h1 : alookup cat s1 = some t1) (h2 : alookup cat s2 = some t2)
    (hcat : cat ≠ "errors") (hcol : col ∈ numericCols t1)
    (hk : k ∈ mergedKeys t1 t2)
    (ha : colVal t1 k col = some a) (hb : colVal t2 k col = some b)
    (hsig : relDiff a b > th) :
    (cat, entriesFor s1 s2 th cat) ∈ compare_summaries s1 s2 th ∧
      DiffEntry.colDiffs col (sigList t1 t2 th col) ∈ entriesFor s1 s2 th cat ∧
      ({ key := k, a := a, b := b, rel := relDiff a b } : ColDiff) ∈
        sigList t1 t2 th col := by
  have hd : ({ key := k, a := a, b := b, rel := relDiff a b } : ColDiff) ∈
      sigList t1 t2 th col := by
    rw [mem_sigList]
    exact ⟨hk, ha, hb, hsig, rfl⟩
  have hentries : DiffEntry.colDiffs col (sigList t1 t2 th col) ∈
      entriesFor s1 s2 th cat := by
    unfold entriesFor
    rw [h1, h2]
    rw [mem_compareBoth]
    exact ⟨col, hcol, List.ne_nil_of_mem hd, rfl⟩
  have hkey : cat ∈ s1.map Prod.fst ++ s2.map Prod.fst := by
    rw [List.mem_append]
    exact Or.inl ((alookup_isSome cat s1).mp (by rw [h1]; rfl))
  exact ⟨mem_compare_summaries.mpr
    ⟨hkey, hcat, List.ne_nil_of_mem hentries, rfl⟩, hentries, hd⟩

/-- A fold of `max` over a list, started at 0, strictly exceeds a
non-negative bound exactly when some element does. -/
theorem foldr_max_gt_iff (l : List ℚ) (t : ℚ) (ht : 0 ≤ t) :
    t < l.foldr max 0 ↔ ∃ x ∈ l, t < x := by
  induction l with
  | nil =>
    simp only [List.foldr_nil, List.not_mem_nil]
    constructor
    · intro h
      exact absurd h (not_lt.mpr ht)
    · rintro ⟨x, hx, -⟩
      exact absurd hx (by simp)
  | cons a l ih =>
    simp only [List.foldr_cons, lt_max_iff, ih, List.mem_cons]
    constructor
    · rintro (h | ⟨x, hx, hxt⟩)
      · exact ⟨a, Or.inl rfl, h⟩
      · exact ⟨x, Or.inr hx, hxt⟩
    · rintro ⟨x, rfl | hx, hxt⟩
      · exact Or.inl hxt
      · exact Or.inr ⟨x, hx, hxt⟩

/-! ## Rounding and formatting lemmas -/

/-- Rounding to 4 decimals is idempotent: the first rounding lands on an
integer multiple of 1/10000, which rounds to itself. -/
theorem round4_round4 (q : ℚ) : round4 (round4 q) = round4 q := by
  unfold round4
  rw [div_mul_cancel₀]
  · rw [round_intCast]
  · norm_num

/-- On a column of plain numbers, `format_numeric_column` cannot fail and
acts cell-wise as `formatNum`. -/
theorem format_map_num (l : List ℚ) :
    format_numeric_column (l.map Cell.num) = Except.ok (l.map formatNum) := by
  induction l with
  | nil => rfl
  | cons q l ih =>
    simp only [List.map_cons]
    unfold format_numeric_column at ih ⊢
    simp only [List.mapM_cons, roundCell, bind, Except.bind, pure, Except.pure] at ih ⊢
    rcases hm : (l.map Cell.num).mapM roundCell with e | fl <;> rw [hm] at ih
    · cases ih
    · simp only [List.map_cons]
      have hcell : (if Cell.num (round4 q) = Cell.num 0 then Cell.blank
          else Cell.num (round4 q)) = formatNum q := by
        unfold formatNum
        by_cases h0 : round4 q = 0
        · rw [if_pos h0, if_pos (by rw [h0])]
        · rw [if_neg h0, if_neg (fun hc => h0 (Cell.num.inj hc))]
      rw [← hcell]
      have hx : fl.map (fun c => if c = Cell.num 0 then Cell.blank else c)
          = l.map formatNum := Except.ok.inj ih
      rw [hx]

/-! ## Lemmas about `generate_summary`'s parts -/

/-- Every entry of the errors part is keyed `errors`. -/
theorem errorsPart_fst {df : DF} {p : String × STab} (h : p ∈ errorsPart df) :
    p.1 = "errors" := by
  unfold errorsPart at h
  by_cases h1 : df.cols.contains "Error"
  · rw [if_pos h1] at h
    by_cases h2 : (errorRows df).isEmpty
    · rw [if_pos h2] at h
      cases h
    · rw [if_neg h2] at h
      obtain rfl := List.mem_singleton.mp h
      rfl
  · rw [if_neg h1] at h
    cases h

/-- A produced category entry is keyed by its own category. -/
theorem categoryEntry_fst {df : DF} {c : String} {p : String × STab}
    (h : categoryEntry df c = some p) : p.1 = c := by
  unfold categoryEntry at h
  by_cases hr : df.rows.isEmpty
  · rw [if_pos hr] at h
    cases h
  · rw [if_neg hr] at h
    rcases hg : groupAgg df [c, "Currency"] (get_numeric_columns df)
        (get_numeric_columns df) with e | t <;> rw [hg] at h
    · cases h
    · obtain rfl := Option.some.inj h
      rfl

/-- A numeric category's own grouping step raises (its column is both a
grouping column and an aggregation-dict key), so its loop iteration yields
nothing. -/
theorem categoryEntry_none {df : DF} {c : String}
    (h : c ∈ get_numeric_columns df) : categoryEntry df c = none := by
  unfold categoryEntry
  by_cases hr : df.rows.isEmpty
  · rw [if_pos hr]
  · rw [if_neg hr]
    have hk : aggKeyError [c, "Currency"] (get_numeric_columns df) = true := by
      unfold aggKeyError
      rw [List.any_eq_true]
      exact ⟨c, h, by simp⟩
    unfold groupAgg
    rw [if_pos hk]

/-! ## The claims -/

/-- C8: with `category_threshold = 20`, classification returns as category
fields exactly the columns other than `Currency` and `Error` whose
distinct-value count is strictly below 20 (exclusive upper bound), and
neither `Currency` nor `Error` ever appears among the category fields or
the numeric fields. -/
theorem C8_classification_reserved_and_threshold (df : DF) (c : String) :
    (c ∈ identify_categories df 20 ↔
      c ∈ df.cols ∧ c ≠ "Currency" ∧ c ≠ "Error" ∧ nunique df c < 20) ∧
    "Currency" ∉ identify_categories df 20 ∧
    "Error" ∉ identify_categories df 20 ∧
    "Currency" ∉ get_numeric_columns df ∧
    "Error" ∉ get_numeric_columns df := by
  have hmem : ∀ x : String, x ∈ identify_categories df 20 ↔
      x ∈ df.cols ∧ x ≠ "Currency" ∧ x ≠ "Error" ∧ nunique df x < 20 := by
    intro x
    unfold identify_categories
    rw [List.mem_filter]
    simp only [Bool.and_eq_true, decide_eq_true_eq, List.mem_cons,
      List.not_mem_nil, or_false, not_or, and_assoc]
  have hnum : ∀ x : String, x ∈ get_numeric_columns df ↔
      x ∈ df.numCols ∧ x ≠ "Currency" ∧ x ≠ "Error" := by
    intro x
    unfold get_numeric_columns
    rw [List.mem_filter]
    simp only [decide_eq_true_eq, List.mem_cons, List.not_mem_nil, or_false,
      not_or]
  refine ⟨hmem c, ?_, ?_, ?_, ?_⟩
  · intro h
    exact ((hmem _).mp h).2.1 rfl
  · intro h
    exact ((hmem _).mp h).2.2.1 rfl
  · intro h
    exact ((hnum _).mp h).2.1 rfl
  · intro h
    exact ((hnum _).mp h).2.2 rfl

/-- C9 counterexample: on a column holding an exact zero, one formatting
pass stores the blank marker and a second pass fails (the source would
raise trying to round the blank), so `format (format col) = format col`
does not hold for every column. -/
theorem C9_counterexample_zero_cell :
    format_numeric_column [Cell.num 0] >>= format_numeric_column ≠
      format_numeric_column [Cell.num 0] := by
  intro h
  have h1 : (Except.error "TypeError: rounding a non-numeric cell"
      : Except String (List Cell)) = Except.ok [Cell.blank] := h
  cases h1

/-- C9 (amended): on a numeric column none of whose values rounds to an
exact zero — so that the blank marker is never produced — the formatting
transform is idempotent. -/
theorem C9_format_idempotent_without_zeros (l : List ℚ)
    (h : ∀ q ∈ l, round4 q ≠ 0) :
    format_numeric_column (l.map Cell.num) >>= format_numeric_column =
      format_numeric_column (l.map Cell.num) := by
  rw [format_map_num]
  have hmap : l.map formatNum = (l.map round4).map Cell.num := by
    rw [List.map_map]
    refine List.map_congr_left ?_
    intro q hq
    unfold formatNum
    rw [if_neg (h q hq)]
    rfl
  rw [show (Except.ok (l.map formatNum) >>= format_numeric_column
      : Except String (List Cell)) = format_numeric_column (l.map formatNum)
    from rfl]
  rw [hmap, format_map_num]
  congr 1
  rw [List.map_map, List.map_map]
  refine List.map_congr_left ?_
  intro q hq
  show formatNum (round4 q) = Cell.num (round4 q)
  unfold formatNum
  rw [round4_round4, if_neg (h q hq)]

/-- C9 witness: the amended idempotence at the concrete column holding
one half. -/
theorem C9_format_idempotent_witness :
    format_numeric_column ([(1 : ℚ) / 2].map Cell.num) >>= format_numeric_column =
      format_numeric_column ([(1 : ℚ) / 2].map Cell.num) :=
  C9_format_idempotent_without_zeros [1 / 2] (by decide)

/-- C1: the record carrying `Error="timeout"` lands in the `errors` table,
yet it also contributes a full row (count 1, Amt sum 5) to the `Cat`
aggregate table — `generate_summary` never filters the error records out
of the frame it aggregates. -/
theorem C1_error_record_contributes_to_aggregates :
    generate_summary dfErr =
      Except.ok [("errors", STab.raw
          [[Val.str "B", Val.str "USD", Val.str "timeout", Val.num 5]]),
        ("Cat", STab.agg dfErrCatTable)] ∧
    { key := [Val.str "B", Val.str "USD"], count := 1,
      sums := [("Amt", Cell.num 5)] } ∈ dfErrCatTable.rows :=
  ⟨rfl, by decide⟩

/-- C2: `generate_summary` stores the 4-decimal-rounded sums (the raw
(A, USD) sum of the second dataset is 0.00104 but the table stores 0.001),
the two formatted summaries coincide, and the comparison the application
runs on them reports nothing — although the relative difference of the raw
sums, 0.04, strictly exceeds the 0.01 threshold. -/
theorem C2_formatting_applied_before_comparison :
    generate_summary dfRoundA = Except.ok [("Cat", STab.agg dfRoundTable)] ∧
    generate_summary dfRoundB = Except.ok [("Cat", STab.agg dfRoundTable)] ∧
    groupSum dfRoundB ["Cat", "Currency"] [Val.str "A", Val.str "USD"] "Amt" =
      13 / 12500 ∧
    formatNum (13 / 12500) = Cell.num (1 / 1000) ∧
    compare_summaries (csummaryOf [("Cat", STab.agg dfRoundTable)])
      (csummaryOf [("Cat", STab.agg dfRoundTable)]) (1 / 100) = [] ∧
    relDiff (1 / 1000) (13 / 12500) > 1 / 100 :=
  ⟨rfl, rfl, rfl, rfl, rfl, by decide⟩

/-- C6: on the spec's own single-value-folding example `generate_summary`
raises instead of producing the base and Region tables: `Cat` is the one
single-value category, so it is both a grouping column and a key of the
aggregation dict, and pandas raises `KeyError` with no handler around the
base-table construction. -/
theorem C6_folding_example_raises_keyerror :
    singleValueCats dfFold = ["Cat"] ∧
    generate_summary dfFold = Except.error
      "KeyError: first-aggregated single-value categories are grouping columns" :=
  ⟨rfl, rfl⟩

/-- C7 (amended): a category whose grouping step raises is omitted from
the SummarySet — no entry of the returned value is keyed by it — while
every category whose grouping succeeds keeps its table, untouched by other
categories' failures; nothing else is returned, so the failure itself is
unobservable to the caller (the source merely prints it). -/
theorem C7_failed_category_skipped_locally :
    (∀ (df : DF) (s : SummarySet) (category : String),
        generate_summary df = Except.ok s →
        category ∈ get_numeric_columns df →
        category ≠ "errors" →
        alookup category s = none) ∧
    (∀ (df : DF) (s : SummarySet) (category : String) (t : ATable),
        generate_summary df = Except.ok s →
        category ∈ remainingCats df →
        df.rows.isEmpty = false →
        groupAgg df [category, "Currency"] (get_numeric_columns df)
          (get_numeric_columns df) = Except.ok t →
        (category, STab.agg (formatTable t)) ∈ s) := by
  constructor
  · intro df s category hgen hnum hne
    unfold generate_summary at hgen
    by_cases hsv : (singleValueCats df).isEmpty
    · rw [if_pos hsv] at hgen
      obtain rfl := Except.ok.inj hgen
      refine alookup_eq_none ?_
      intro p hp
      rcases List.mem_append.mp hp with hp | hp
      · rw [errorsPart_fst hp]
        exact fun hc => hne hc.symm
      · obtain ⟨c, hc, hce⟩ := List.mem_filterMap.mp hp
        rw [categoryEntry_fst hce]
        intro hcc
        subst hcc
        rw [categoryEntry_none hnum] at hce
        cases hce
    · rw [if_neg hsv] at hgen
      cases hgen
  · intro df s category t hgen hcat hrows hagg
    unfold generate_summary at hgen
    by_cases hsv : (singleValueCats df).isEmpty
    · rw [if_pos hsv] at hgen
      obtain rfl := Except.ok.inj hgen
      refine List.mem_append_right _ ?_
      refine List.mem_filterMap.mpr ⟨category, hcat, ?_⟩
      unfold categoryEntry
      rw [if_neg (by rw [hrows]; exact Bool.false_ne_true), hagg]
    · rw [if_neg hsv] at hgen
      cases hgen

/-- C7 witness: on the concrete dataset whose numeric category `Val`
fails, the returned SummarySet has no entry for `Val`. -/
theorem C7_skipped_witness :
    alookup "Val" [("Cat", STab.agg dfNumCatTable)] = none :=
  C7_failed_category_skipped_locally.1 dfNumCat
    [("Cat", STab.agg dfNumCatTable)] "Val" rfl (by decide) (by decide)

/-- C7 counterexample: the whole value returned to the caller for
`dfNumCat` is the one-table SummarySet — the failing category `Val` is a
category field of the dataset, yet the return value records neither its
table nor any partial-failure report for it. -/
theorem C7_counterexample_no_failure_report :
    generate_summary dfNumCat =
      Except.ok [("Cat", STab.agg dfNumCatTable)] ∧
    "Val" ∈ identify_categories dfNumCat 20 ∧
    "Val" ∈ get_numeric_columns dfNumCat ∧
    alookup "Val" [("Cat", STab.agg dfNumCatTable)] = none :=
  ⟨rfl, by decide, by decide, rfl⟩

/-- C3 counterexample: on the claim's own example — and also with a
numeric field present — the GroupKey (Y, USD) that only side B has is not
reported at all: the comparison output is empty, with no "new" (or
"removed") entry anywhere. -/
theorem C3_counterexample_new_key_unreported :
    compare_summaries [("T", tNewA)] [("T", tNewB)] (1 / 100) = [] ∧
    compare_summaries [("T", tNewA2)] [("T", tNewB2)] (1 / 100) = [] :=
  ⟨rfl, rfl⟩

/-- C3 (amended): when a table name is in both SummarySets, a GroupKey
present on only one side yields no comparison entry whatsoever — every
difference row's key has a row in both tables (the both-present mask plus
the significance filter drop one-sided keys) — and there is no per-key
new/removed reporting; on the claim's example the output is empty. -/
theorem C3_one_sided_keys_yield_no_entries :
    (∀ (s1 s2 : CSummary) (th : ℚ) (cat : String) (entries : List DiffEntry)
        (col : String) (diffs : List ColDiff) (d : ColDiff) (t1 t2 : CTable),
        (cat, entries) ∈ compare_summaries s1 s2 th →
        DiffEntry.colDiffs col diffs ∈ entries →
        d ∈ diffs →
        alookup cat s1 = some t1 → alookup cat s2 = some t2 →
        (alookup d.key t1.rows).isSome ∧ (alookup d.key t2.rows).isSome) ∧
    compare_summaries [("T", tNewA)] [("T", tNewB)] (1 / 100) = [] := by
  constructor
  · intro s1 s2 th cat entries col diffs d t1 t2 hmem hcol hd h1 h2
    obtain ⟨t1', t2', h1', h2', -, -, ha, hb, -, -⟩ := colDiff_row_spec hmem hcol hd
    rw [h1] at h1'
    obtain rfl := Option.some.inj h1'
    rw [h2] at h2'
    obtain rfl := Option.some.inj h2'
    unfold colVal at ha hb
    constructor
    · obtain ⟨r, hr, -⟩ := Option.bind_eq_some.mp ha
      rw [hr]
      rfl
    · obtain ⟨r, hr, -⟩ := Option.bind_eq_some.mp hb
      rw [hr]
      rfl
  · rfl

/-- C3 witness: a difference row the comparison does emit has its key on
both sides. -/
theorem C3_both_sides_witness :
    (alookup dSig.key tSigA.rows).isSome ∧
    (alookup dSig.key tSigB.rows).isSome :=
  C3_one_sided_keys_yield_no_entries.1 [("U", tSigA)] [("U", tSigB)] (1 / 100)
    "U" [DiffEntry.colDiffs "Amt" [dSig]] "Amt" [dSig] dSig tSigA tSigB
    (by decide) (by decide) (by decide) rfl rfl

/-- C4: the relative difference is `|sum_b - sum_a| / max |sum_a| 1e-10`;
every emitted difference row records exactly that quantity and passes the
strict threshold test; at the boundary, sums 100 and 101 give relative
difference exactly 0.01 and the 0.01-threshold comparison reports nothing,
while sums 100 and 102 give 0.02 and the row is reported. -/
theorem C4_rel_diff_formula_and_strict_threshold :
    (∀ a b : ℚ, relDiff a b = |b - a| / max |a| (1 / 10000000000)) ∧
    (∀ (s1 s2 : CSummary) (th : ℚ) (cat : String) (entries : List DiffEntry)
        (col : String) (diffs : List ColDiff) (d : ColDiff),
        (cat, entries) ∈ compare_summaries s1 s2 th →
        DiffEntry.colDiffs col diffs ∈ entries → d ∈ diffs →
        d.rel = relDiff d.a d.b ∧ d.rel > th) ∧
    relDiff 100 101 = 1 / 100 ∧
    compare_summaries [("T", tXa)] [("T", tXb1)] (1 / 100) = [] ∧
    relDiff 100 102 = 1 / 50 ∧
    compare_summaries [("T", tXa)] [("T", tXb2)] (1 / 100) =
      [("T", [DiffEntry.colDiffs "Amt" [dX]])] := by
  refine ⟨fun a b => rfl, ?_, by decide, rfl, by decide, rfl⟩
  intro s1 s2 th cat entries col diffs d hmem hcol hd
  obtain ⟨t1, t2, -, -, -, -, -, -, hrel, hgt⟩ := colDiff_row_spec hmem hcol hd
  exact ⟨hrel, by rw [hrel]; exact hgt⟩

/-- C4 witness: the emitted row for sums 100 and 102 records their
relative difference and strictly exceeds the threshold. -/
theorem C4_boundary_witness :
    dX.rel = relDiff dX.a dX.b ∧ dX.rel > 1 / 100 :=
  C4_rel_diff_formula_and_strict_threshold.2.1 [("T", tXa)] [("T", tXb2)]
    (1 / 100) "T" [DiffEntry.colDiffs "Amt" [dX]] "Amt" [dX] dX
    (by decide) (by decide) (by decide)

/-- C5: for a table present in both summaries, a GroupKey present on both
sides (with every numeric column valued on both rows) is retained in the
comparison output exactly when the maximum relative difference across the
numeric fields strictly exceeds the threshold; all other common rows are
dropped. -/
theorem C5_common_row_retained_iff_max_rel_diff (s1 s2 : CSummary) (th : ℚ)
    (cat : String) (t1 t2 : CTable) (k : Val × Val)
    (rA rB : List (String × ℚ))
    (hcat : cat ≠ "errors")
    (h1 : alookup cat s1 = some t1) (h2 : alookup cat s2 = some t2)
    (hkA : alookup k t1.rows = some rA) (hkB : alookup k t2.rows = some rB)
    (hcols : ∀ c ∈ numericCols t1, (alookup c rA).isSome ∧ (alookup c rB).isSome)
    (ht : 0 ≤ th) :
    keyRetained (compare_summaries s1 s2 th) cat k ↔
      maxRelDiff t1 rA rB > th := by
  unfold keyRetained maxRelDiff
  rw [show (((numericCols t1).map
        (fun c => relDiff (getQ rA c) (getQ rB c))).foldr max 0 > th) =
      (th < ((numericCols t1).map
        (fun c => relDiff (getQ rA c) (getQ rB c))).foldr max 0) from rfl]
  rw [foldr_max_gt_iff _ th ht]
  constructor
  · rintro ⟨entries, col, diffs, d, hmem, hcol, hd, hdk⟩
    obtain ⟨t1', t2', h1', h2', hcolmem, -, ha, hb, -, hgt⟩ :=
      colDiff_row_spec hmem hcol hd
    rw [h1] at h1'
    obtain rfl := Option.some.inj h1'
    rw [h2] at h2'
    obtain rfl := Option.some.inj h2'
    refine ⟨relDiff (getQ rA col) (getQ rB col),
      List.mem_map.mpr ⟨col, hcolmem, rfl⟩, ?_⟩
    have hva : getQ rA col = d.a := by
      unfold colVal at ha
      rw [hdk, hkA] at ha
      unfold getQ
      rw [Option.some_bind] at ha
      rw [ha]
      rfl
    have hvb : getQ rB col = d.b := by
      unfold colVal at hb
      rw [hdk, hkB] at hb
      unfold getQ
      rw [Option.some_bind] at hb
      rw [hb]
      rfl
    rw [hva, hvb]
    exact hgt
  · rintro ⟨x, hx, hxt⟩
    obtain ⟨c, hc, rfl⟩ := List.mem_map.mp hx
    obtain ⟨hsa, hsb⟩ := hcols c hc
    obtain ⟨a, ha⟩ := Option.isSome_iff_exists.mp hsa
    obtain ⟨b, hb⟩ := Option.isSome_iff_exists.mp hsb
    have hva : getQ rA c = a := by
      unfold getQ
      rw [ha]
      rfl
    have hvb : getQ rB c = b := by
      unfold getQ
      rw [hb]
      rfl
    rw [hva, hvb] at hxt
    have hca : colVal t1 k c = some a := by
      unfold colVal
      rw [hkA, Option.some_bind]
      exact ha
    have hcb : colVal t2 k c = some b := by
      unfold colVal
      rw [hkB, Option.some_bind]
      exact hb
    have hkmem : k ∈ mergedKeys t1 t2 := by
      unfold mergedKeys
      rw [mem_dedupFirst, List.mem_append]
      exact Or.inl ((alookup_isSome k t1.rows).mp (by rw [hkA]; rfl))
    obtain ⟨hmem, hentries, hd⟩ := sig_mem_compare h1 h2 hcat hc hkmem hca hcb hxt
    exact ⟨_, c, _, _, hmem, hentries, hd, rfl⟩

/-- C5 witness: the retained-iff-significant equivalence at the concrete
pair of one-row summaries whose `Amt` doubles. -/
theorem C5_retained_witness :
    keyRetained (compare_summaries [("U", tSigA)] [("U", tSigB)] (1 / 100)) "U"
        (Val.str "X", Val.str "USD") ↔
      maxRelDiff tSigA [("Amt", 1)] [("Amt", 2)] > 1 / 100 :=
  C5_common_row_retained_iff_max_rel_diff [("U", tSigA)] [("U", tSigB)] (1 / 100)
    "U" tSigA tSigB (Val.str "X", Val.str "USD") [("Amt", 1)] [("Amt", 2)]
    (by decide) rfl rfl rfl rfl (by decide) (by decide)

/-- C10: a table present in both summaries whose relative differences all
sit at or below the threshold gets no key in the comparison result; and
every key of the result is either a both-sides table with at least one
strictly-significant difference row or a table present on exactly one
side. -/
theorem C10_result_keys_characterised (s1 s2 : CSummary) (th : ℚ)
    (cat : String) :
    ((∃ t1 t2, alookup cat s1 = some t1 ∧ alookup cat s2 = some t2 ∧
        ∀ (k : Val × Val) (col : String) (a b : ℚ),
          colVal t1 k col = some a → colVal t2 k col = some b →
          relDiff a b ≤ th) →
      ∀ e ∈ compare_summaries s1 s2 th, e.1 ≠ cat) ∧
    (∀ entries, (cat, entries) ∈ compare_summaries s1 s2 th →
      (∃ col diffs d, DiffEntry.colDiffs col diffs ∈ entries ∧ d ∈ diffs ∧
        relDiff d.a d.b > th ∧
        (alookup cat s1).isSome ∧ (alookup cat s2).isSome) ∨
      ((alookup cat s1).isSome ∧ alookup cat s2 = none) ∨
      (alookup cat s1 = none ∧ (alookup cat s2).isSome)) := by
  constructor
  · rintro ⟨t1, t2, h1, h2, hsmall⟩ e he heq
    obtain ⟨c, entries⟩ := e
    simp only at heq
    subst heq
    obtain ⟨-, -, hne, -⟩ := mem_compare_summaries.mp he
    unfold entriesFor at hne
    rw [h1, h2] at hne
    obtain ⟨x, hx⟩ := List.exists_mem_of_ne_nil _ hne
    obtain ⟨col, -, hsne, -⟩ := mem_compareBoth.mp hx
    obtain ⟨d, hd⟩ := List.exists_mem_of_ne_nil _ hsne
    obtain ⟨-, ha, hb, hgt, -⟩ := mem_sigList.mp hd
    exact absurd (hsmall d.key col d.a d.b ha hb) (not_le.mpr hgt)
  · intro entries hmem
    obtain ⟨-, -, hne, rfl⟩ := mem_compare_summaries.mp hmem
    unfold entriesFor at hne ⊢
    rcases h1 : alookup cat s1 with _ | t1 <;>
        rcases h2 : alookup cat s2 with _ | t2 <;> rw [h1, h2] at hne
    · exact absurd rfl hne
    · right
      right
      exact ⟨rfl, rfl⟩
    · right
      left
      exact ⟨rfl, rfl⟩
    · left
      obtain ⟨x, hx⟩ := List.exists_mem_of_ne_nil _ hne
      obtain ⟨col, -, hsne, rfl⟩ := mem_compareBoth.mp hx
      obtain ⟨d, hd⟩ := List.exists_mem_of_ne_nil _ hsne
      obtain ⟨-, -, -, hgt, -⟩ := mem_sigList.mp hd
      exact ⟨col, _, d, hx, hd, hgt, rfl, rfl⟩

/-- C10 witness: the key the comparison of the doubling summaries does
emit is a both-sides table with a strictly-significant row. -/
theorem C10_keys_witness :
    (∃ col diffs d, DiffEntry.colDiffs col diffs ∈
        [DiffEntry.colDiffs "Amt" [dSig]] ∧ d ∈ diffs ∧
        relDiff d.a d.b > (1 : ℚ) / 100 ∧
        (alookup "U" [("U", tSigA)]).isSome ∧
        (alookup "U" [("U", tSigB)]).isSome) ∨
      ((alookup "U" [("U", tSigA)]).isSome ∧
        alookup "U" [("U", tSigB)] = none) ∨
      (alookup "U" [("U", tSigA)] = none ∧
        (alookup "U" [("U", tSigB)]).isSome) :=
  (C10_result_keys_characterised [("U", tSigA)] [("U", tSigB)] (1 / 100) "U").2
    [DiffEntry.colDiffs "Amt" [dSig]] (by decide)

end Scripts
